import Mathlib

/-!
Shallow embedding of the filesystem-path engine of lib/fs/path.c: quoted-path
unquoting, relative/absolute classification, stat-safe cleanup, syntactic
parent-directory computation, glob-metacharacter detection, and the two glob
backends (the native facility adapter and the manual recursive Win32 matcher).
Strings are modelled as List Char; the platform choice is an explicit Bool
parameter (true for the Win32 build, false for the POSIX build); the
filesystem and the native single-segment matcher are abstract collaborators
collected in a structure FS.
-/

namespace TorPath

/-- Translation of the C test pattern for path separators: the forward slash
everywhere, additionally the backslash on the Win32 build. -/
def path_sep (win32 : Bool) (c : Char) : Bool :=
  decide (c = '/' ∨ (win32 = true ∧ c = '\\'))

/-- Translation of the ASCII classification macro TOR_ISALPHA from
compat_ctype.h, used by path_is_relative on the Win32 build. -/
def TOR_ISALPHA (c : Char) : Bool :=
  decide ((65 ≤ c.toNat ∧ c.toNat ≤ 90) ∨ (97 ≤ c.toNat ∧ c.toNat ≤ 122))

/-- Interior of a possibly quoted string: the characters strictly between the
enclosing quote characters when they are present (the loop bounds
has_start_quote .. len - has_end_quote - 1 of get_unquoted_path). -/
def quote_interior (path : List Char) : List Char :=
  let hs : Bool := decide (path.getD 0 ' ' = '"')
  let he : Bool := decide (path.getD (path.length - 1) ' ' = '"')
  let b0 := if hs then path.drop 1 else path
  if he then b0.dropLast else b0

/-- Translation of the scanning loop of get_unquoted_path: prev is the input
character preceding the current one, acc the output built so far.  A quote
preceded by a backslash overwrites the last output character (the C writes
through s-1); any other non-quote character is appended; a bare quote aborts
with NULL, modelled as none. -/
def get_unquoted_path_loop : Char → List Char → List Char → Option (List Char)
  | _, [], acc => some acc
  | prev, c :: rest, acc =>
    if c = '"' ∧ prev = '\\' then
      get_unquoted_path_loop c rest (acc.dropLast ++ [c])
    else if c ≠ '"' then
      get_unquoted_path_loop c rest (acc ++ [c])
    else
      none

/-- Translation of get_unquoted_path: removes enclosing quotes and unescapes
quotes between them; none models the NULL (malformed quoting) return. -/
def get_unquoted_path (path : List Char) : Option (List Char) :=
  if path.length = 0 then some []
  else
    let hs : Bool := decide (path.getD 0 ' ' = '"')
    let he : Bool := decide (path.getD (path.length - 1) ' ' = '"')
    if hs ≠ he ∨ (path.length = 1 ∧ hs = true) then none
    else get_unquoted_path_loop (if hs then '"' else ' ') (quote_interior path) []

/-- Translation of path_is_relative; none models a NULL filename pointer (the
C short-circuits every test on a NULL argument and falls through to 1). -/
def path_is_relative (win32 : Bool) (filename : Option (List Char)) : Bool :=
  match filename with
  | none => true
  | some f =>
    if f.getD 0 '\x00' = '/' then false
    else if win32 = true ∧ f.getD 0 '\x00' = '\\' then false
    else if win32 = true ∧ 3 < f.length ∧ TOR_ISALPHA (f.getD 0 '\x00') = true ∧
        f.getD 1 '\x00' = ':' ∧ f.getD 2 '\x00' = '\\' then false
    else true

/-- Translation of clean_fname_for_stat: a no-op on POSIX; on Win32 removes a
single trailing slash or backslash unless the name is a bare separator or a
drive root of the form c:X. -/
def clean_fname_for_stat (win32 : Bool) (name : List Char) : List Char :=
  if win32 then
    if name.length = 0 then name
    else if name.getD (name.length - 1) ' ' = '\\' ∨
        name.getD (name.length - 1) ' ' = '/' then
      if name.length = 1 ∨ (name.length = 3 ∧ name.getD 1 ' ' = ':') then name
      else name.dropLast
    else name
  else name

/-- Translation of the backward scan of get_parent_directory, acting on the
reversed remainder of the file name: the head of the list is the character
the cursor cp points at, the tail is everything before it; at_end records
whether only separators have been seen so far.  some r models the successful
in-place truncation to r; none models the -1 return. -/
def gpd_scan (win32 : Bool) : List Char → Bool → Option (List Char)
  | [], _ => none
  | c :: rest, at_end =>
    if path_sep win32 c then
      if rest = [] then some [c]
      else if at_end then gpd_scan win32 rest at_end
      else some rest.reverse
    else gpd_scan win32 rest false

/-- Condition under which get_parent_directory skips a leading drive prefix
on the Win32 build (fname[0] nonzero and fname[1] a colon). -/
def drive_skip (win32 : Bool) (fname : List Char) : Bool :=
  decide (win32 = true ∧ 2 ≤ fname.length ∧ fname.getD 1 ' ' = ':')

/-- Translation of get_parent_directory: some r is the success return 0 with
the buffer rewritten to r, none is the failure return -1. -/
def get_parent_directory (win32 : Bool) (fname : List Char) : Option (List Char) :=
  let pre := if drive_skip win32 fname then fname.take 2 else []
  let rest := if drive_skip win32 fname then fname.drop 2 else fname
  match gpd_scan win32 rest.reverse true with
  | none => none
  | some r => some (pre ++ r)

/-- Translation of the IS_GLOB_CHAR macro: on the Win32 build a star or
question mark unconditionally; on the POSIX build only when not immediately
preceded by a backslash (a metacharacter at index 0 always counts). -/
def IS_GLOB_CHAR (win32 : Bool) (s : List Char) (i : Nat) : Bool :=
  if win32 then decide (s.getD i ' ' = '*' ∨ s.getD i ' ' = '?')
  else decide ((s.getD i ' ' = '*' ∨ s.getD i ' ' = '?') ∧
    (i = 0 ∨ ¬ s.getD (i - 1) ' ' = '\\'))

/-- Translation of the scanning loop of has_glob: the C loop runs while the
character s[i] is not the terminator, which is modelled by also carrying the
not-yet-scanned suffix of s (always equal to s.drop i) to drive the
structural recursion. -/
def has_glob_loop (win32 : Bool) (s : List Char) : List Char → Nat → Bool
  | [], _ => false
  | _ :: rest, i =>
    if IS_GLOB_CHAR win32 s i then true else has_glob_loop win32 s rest (i + 1)

/-- Translation of has_glob: true iff s contains characters that can be
globbed. -/
def has_glob (win32 : Bool) (s : List Char) : Bool :=
  has_glob_loop win32 s s 0

/-- Modelled from the spec: the File Status Tag of the file_status
collaborator (files.h, not part of src/), one of Error, NotExist, File,
Directory, Other; the constructor names follow the C enum file_status_t,
with FN_EMPTY standing for the Other tag. -/
inductive file_status_t where
  | FN_ERROR
  | FN_NOENT
  | FN_FILE
  | FN_DIR
  | FN_EMPTY
deriving DecidableEq

/-- Modelled from the spec: the files.h helper is_file (not part of src/): a
status tag other than Error, NotExist and Directory denotes an existing
file. -/
def is_file (st : file_status_t) : Bool :=
  match st with
  | .FN_ERROR => false
  | .FN_NOENT => false
  | .FN_DIR => false
  | _ => true

/-- Modelled from the spec: the files.h helper is_dir (not part of src/). -/
def is_dir (st : file_status_t) : Bool :=
  match st with
  | .FN_DIR => true
  | _ => false

/-- The external collaborators consumed by the manual glob backend: the
sandbox-gated stat and directory-listing capabilities and the native
single-segment wildcard matcher PathMatchSpec.  listdir returning none
models a NULL smartlist from tor_listdir (enumeration failure). -/
structure FS where
  file_status : List Char → file_status_t
  listdir : List Char → Option (List (List Char))
  PathMatchSpec : List Char → List Char → Bool

/-- Length of the literal portion kept by unglob_win32: prev_sep when it is
at least 1, otherwise prev_sep + 1 (the C comment: handle a leading
separator followed by a glob). -/
def unglob_prefix_len (prev_sep : Int) : Int :=
  if prev_sep < 1 then prev_sep + 1 else prev_sep

/-- Translation of unglob_win32: expands the first glob-bearing segment of
pattern against the directory named by the literal portion before it.
none models the NULL return taken when tor_listdir fails; a literal portion
that is an existing regular file yields the untouched empty result list. -/
def unglob_win32 (fs : FS) (pattern : List Char) (prev_sep curr_sep : Int) :
    Option (List (List Char)) :=
  let path_until_glob := pattern.take (unglob_prefix_len prev_sep).toNat
  if is_file (fs.file_status path_until_glob) then some []
  else
    match fs.listdir path_until_glob with
    | none => none
    | some filenames =>
      some (filenames.foldr
        (fun filename acc =>
          let full_path := path_until_glob ++ '\\' :: filename
          let pcg := pattern.take (curr_sep + 1).toNat
          let path_curr_glob :=
            if is_dir (fs.file_status full_path) then clean_fname_for_stat true pcg
            else pcg
          if fs.PathMatchSpec full_path path_curr_glob then full_path :: acc else acc)
        [])

/-- Translation of add_non_glob_path: returns the C boolean result paired
with the updated result list; a stat error yields false, a nonexistent path
adds nothing, anything else adds the stat-safe cleanup of the path. -/
def add_non_glob_path (win32 : Bool) (fs : FS) (path : List Char)
    (results : List (List Char)) : Bool × List (List Char) :=
  let file_type := fs.file_status path
  if file_type = .FN_ERROR then (false, results)
  else if ¬ file_type = .FN_NOENT then
    (true, results ++ [clean_fname_for_stat win32 path])
  else (true, results)

/-- Translation of the scanning loop at the top of tor_glob_win32: walks the
pattern searching for the first fragment containing a glob character,
threading the is_glob flag and the indices of the separator before and after
that fragment (both initially -1); stops early, as the C break does, at the
first separator or final character reached with the flag set.  The list
argument is the not-yet-scanned suffix of the pattern, whose head c is the
character pattern[i] the iteration reads: the Win32 IS_GLOB_CHAR test, the
separator test and the test on pattern[i+1] being the terminator (is_last)
all read only c and the emptiness of the rest.  The result is the triple
(is_glob, prev_sep, curr_sep) as left by the loop. -/
def glob_pos_scan : List Char → Nat → Int → Int → Bool → Bool × Int × Int
  | [], _, prev_sep, curr_sep, is_glob => (is_glob, prev_sep, curr_sep)
  | c :: rest, i, prev_sep, curr_sep, is_glob =>
    let is_glob2 := is_glob || decide (c = '*' ∨ c = '?')
    let is_last : Bool := decide (rest = [])
    let is_sep : Bool := decide (c = '\\' ∨ c = '/')
    if is_sep || is_last then
      if is_glob2 then (is_glob2, curr_sep, Int.ofNat i)
      else glob_pos_scan rest (i + 1) curr_sep (Int.ofNat i) is_glob2
    else glob_pos_scan rest (i + 1) prev_sep curr_sep is_glob2

/-- Translation of the candidate loop of tor_glob_win32: recur is the
recursive invocation of the engine on the rest of the pattern, suffix the
pattern remainder after the glob-bearing fragment.  The C breaks at the
first erroring recursive call and then discards every accumulated result;
this is modelled by returning none as soon as any recursive call or any
later iteration returns none, and the concatenation of the opened paths in
candidate order otherwise. -/
def glob_loop (recur : List Char → Option (List (List Char)))
    (suffix : List Char) : List (List Char) → Option (List (List Char))
  | [] => some []
  | current_path :: rest =>
    match recur (current_path ++ '\\' :: suffix) with
    | none => none
    | some opened_next =>
      match glob_loop recur suffix rest with
      | none => none
      | some later => some (opened_next ++ later)

/-- Body of tor_glob_win32 with the recursive call abstracted as recur: scan
for the first glob-bearing fragment; with none present fall into the
add_non_glob_path base case (none models the NULL return on a stat error);
otherwise expand the fragment with unglob_win32 (none on failure) and run
the candidate loop. -/
def tor_glob_win32_step (fs : FS)
    (recur : List Char → Option (List (List Char)))
    (pattern : List Char) : Option (List (List Char)) :=
  let scan := glob_pos_scan pattern 0 (-1) (-1) false
  if scan.1 = false then
    let r := add_non_glob_path true fs pattern []
    if r.1 then some r.2 else none
  else
    match unglob_win32 fs pattern scan.2.1 scan.2.2 with
    | none => none
    | some unglobbed_paths =>
      glob_loop recur (pattern.drop (scan.2.2 + 1).toNat) unglobbed_paths

/-- Translation of tor_glob_win32, the manual recursive glob backend; the
recursion of the C, whose depth is bounded by the number of pattern
segments, is made structural with an explicit fuel parameter (with fuel 0
the engine gives no answer, modelled as none). -/
def tor_glob_win32 (fs : FS) : Nat → List Char → Option (List (List Char))
  | 0, _ => none
  | fuel + 1, pattern => tor_glob_win32_step fs (tor_glob_win32 fs fuel) pattern

/-- Outcome of the native glob facility consumed by the POSIX branch of
tor_glob: the distinguished no-match return GLOB_NOMATCH, any other nonzero
return, or success with the matched path vector. -/
inductive glob_ret where
  | ok (paths : List (List Char))
  | nomatch
  | err
deriving DecidableEq

/-- The trailing-separator stripping the POSIX branch of tor_glob applies to
each successful match: exactly one trailing path separator is removed when
present. -/
def strip_one_trailing_sep (m : List Char) : List Char :=
  if 0 < m.length ∧ m.getD (m.length - 1) ' ' = '/' then m.dropLast else m

/-- Translation of the POSIX branch of tor_glob, with the native facility
abstracted by its outcome: GLOB_NOMATCH maps to a fresh empty list, any
other nonzero return to none, and a success to the matches with one
trailing separator stripped each. -/
def tor_glob_posix (ret : glob_ret) : Option (List (List Char)) :=
  match ret with
  | .nomatch => some []
  | .err => none
  | .ok paths => some (paths.map strip_one_trailing_sep)

/-- Translation of tor_strreplacechar as used by the Win32 branch of
tor_glob to normalize forward slashes to backslashes. -/
def tor_strreplacechar (s : List Char) (find replace : Char) : List Char :=
  s.map (fun c => if c = find then replace else c)

/-- Translation of the Win32 branch of tor_glob: normalize separators, then
run the manual backend. -/
def tor_glob_w32 (fs : FS) (fuel : Nat) (pattern : List Char) :
    Option (List (List Char)) :=
  tor_glob_win32 fs fuel (tor_strreplacechar pattern '/' '\\')

/-- Specification-side rewriting of the Quote/Escape Parser output, written
from the words of the spec: each backslash-escaped quote becomes a bare
quote with the escaping backslash removed, every other character (other
backslashes included) is preserved. -/
def unescape_quotes : List Char → List Char
  | [] => []
  | [c] => [c]
  | c :: c2 :: rest =>
    if c = '\\' ∧ c2 = '"' then '"' :: unescape_quotes rest
    else c :: unescape_quotes (c2 :: rest)

/-- Specification-side failure condition of the Quote/Escape Parser, written
from the words of the spec: the string contains a bare quote character that
is not escaped by an immediately preceding backslash. -/
def contains_bare_quote : List Char → Bool
  | [] => false
  | [c] => decide (c = '"')
  | c :: c2 :: rest =>
    if c = '"' then true
    else if c = '\\' ∧ c2 = '"' then contains_bare_quote rest
    else contains_bare_quote (c2 :: rest)

/-- Concrete collaborator world for the rollback witness: the directory a
holds the single entry x, the matched path is a regular file, and the
recursive sub-expansion stats it with a trailing separator, which errors. -/
def fs1 : FS where
  file_status := fun p =>
    if p = ("a").toList then .FN_DIR
    else if p = ("a\\x").toList then .FN_FILE
    else if p = ("a\\x\\").toList then .FN_ERROR
    else .FN_NOENT
  listdir := fun p => if p = ("a").toList then some [("x").toList] else none
  PathMatchSpec := fun _ _ => true

/-- Concrete collaborator world for the first-step enumeration failure
counterexample: no path exists and every directory enumeration fails. -/
def fs4 : FS where
  file_status := fun _ => .FN_NOENT
  listdir := fun _ => none
  PathMatchSpec := fun _ _ => false

lemma IS_GLOB_CHAR_iff (win32 : Bool) (s : List Char) (i : Nat) :
    IS_GLOB_CHAR win32 s i = true ↔
      ((s.getD i ' ' = '*' ∨ s.getD i ' ' = '?') ∧
        (win32 = true ∨ i = 0 ∨ ¬ s.getD (i - 1) ' ' = '\\')) := by
  cases win32 <;> simp [IS_GLOB_CHAR]

lemma has_glob_loop_iff (win32 : Bool) (s : List Char) :
    ∀ (t : List Char) (i : Nat), t = s.drop i →
      (has_glob_loop win32 s t i = true ↔
        ∃ j, i ≤ j ∧ j < s.length ∧ IS_GLOB_CHAR win32 s j = true) := by
  intro t
  induction t with
  | nil =>
    intro i ht
    have hlen : s.length ≤ i := by
      have := congrArg List.length ht
      simp [List.length_drop] at this
      omega
    simp only [has_glob_loop]
    constructor
    · intro h; cases h
    · rintro ⟨j, h1, h2, _⟩; omega
  | cons c rest ih =>
    intro i ht
    have hi : i < s.length := by
      by_contra hcon
      have hnil : s.drop i = [] := List.drop_eq_nil_of_le (by omega)
      rw [hnil] at ht
      cases ht
    have hrest : rest = s.drop (i + 1) := by
      have h1 : (s.drop i).tail = s.drop (i + 1) := by
        rw [List.tail_drop]
      rw [← ht] at h1
      simpa using h1
    simp only [has_glob_loop]
    by_cases hg : IS_GLOB_CHAR win32 s i = true
    · rw [if_pos hg]
      constructor
      · intro _
        exact ⟨i, le_refl i, hi, hg⟩
      · intro _; rfl
    · rw [if_neg hg]
      rw [ih (i + 1) hrest]
      constructor
      · rintro ⟨j, h1, h2, h3⟩
        exact ⟨j, by omega, h2, h3⟩
      · rintro ⟨j, h1, h2, h3⟩
        rcases Nat.lt_or_ge i j with hlt | hge
        · exact ⟨j, by omega, h2, h3⟩
        · have hji : j = i := by omega
          subst hji
          exact absurd h3 hg

/-- Claim C8: has_glob returns true exactly when the string contains a star
or question mark that, on the escaping (POSIX) platform, is not immediately
preceded by a backslash (a metacharacter at index 0 always counts), while on
the Win32 platform every star or question mark counts unconditionally; in
particular true on the strings a star b and a question-mark b, false on abc,
and on the escaping platform false when the only metacharacter is
backslash-escaped. -/
theorem has_glob_spec :
    (∀ (win32 : Bool) (s : List Char),
      has_glob win32 s = true ↔
        ∃ i, i < s.length ∧ (s.getD i ' ' = '*' ∨ s.getD i ' ' = '?') ∧
          (win32 = true ∨ i = 0 ∨ ¬ s.getD (i - 1) ' ' = '\\')) ∧
    has_glob false (("a*b").toList) = true ∧
    has_glob false (("a?b").toList) = true ∧
    has_glob false (("abc").toList) = false ∧
    has_glob false (("a\\*b").toList) = false ∧
    has_glob true (("a\\*b").toList) = true := by
  refine ⟨?_, by decide, by decide, by decide, by decide, by decide⟩
  intro win32 s
  rw [has_glob, has_glob_loop_iff win32 s s 0 (by simp)]
  simp only [IS_GLOB_CHAR_iff, Nat.zero_le, true_and]

/-- Witness for C8 at the concrete input a star b on the escaping platform. -/
theorem has_glob_spec_inst :
    ∃ i, i < (("a*b").toList).length ∧
      ((("a*b").toList).getD i ' ' = '*' ∨ (("a*b").toList).getD i ' ' = '?') ∧
      (false = true ∨ i = 0 ∨ ¬ (("a*b").toList).getD (i - 1) ' ' = '\\') :=
  (has_glob_spec.1 false (("a*b").toList)).mp (by decide)

/-- Claim C10: on the four-character input quote, a, backslash, quote the
final quote immediately preceded by a backslash is still treated as the
closing enclosing quote, so get_unquoted_path succeeds with the two
characters a and backslash instead of failing with malformed quoting. -/
theorem get_unquoted_path_escaped_final_quote :
    get_unquoted_path ['"', 'a', '\\', '"'] = some ['a', '\\'] := by rfl

/-- Counterexample to claim C7: the bare three-character drive root is
classified as relative by path_is_relative on the Win32 build, because the
code requires a length strictly greater than three, while the claim says any
path whose prefix has the drive form is absolute. -/
theorem path_is_relative_drive_root_cex :
    path_is_relative true (some ['C', ':', '\\']) = true := by rfl

/-- Claim C7 as amended: null or empty input is relative; a path starting
with a forward slash is absolute on both platforms and one starting with a
backslash is absolute on the drive-letter platform; on the drive-letter
platform a path of length greater than three whose first three characters
have the drive form letter, colon, backslash is absolute, while the bare
three-character drive root itself is classified relative. -/
theorem path_is_relative_spec :
    (∀ win32 : Bool, path_is_relative win32 none = true) ∧
    (∀ win32 : Bool, path_is_relative win32 (some []) = true) ∧
    (∀ (win32 : Bool) (f : List Char), f.getD 0 '\x00' = '/' →
      path_is_relative win32 (some f) = false) ∧
    (∀ f : List Char, f.getD 0 '\x00' = '\\' →
      path_is_relative true (some f) = false) ∧
    (∀ f : List Char, 3 < f.length → TOR_ISALPHA (f.getD 0 '\x00') = true →
      f.getD 1 '\x00' = ':' → f.getD 2 '\x00' = '\\' →
      path_is_relative true (some f) = false) ∧
    (∀ c : Char, TOR_ISALPHA c = true →
      path_is_relative true (some [c, ':', '\\']) = true) := by
  refine ⟨fun win32 => rfl, fun win32 => by cases win32 <;> rfl, ?_, ?_, ?_, ?_⟩
  · intro win32 f h
    simp only [path_is_relative]
    rw [if_pos h]
  · intro f h
    have h0 : ¬ f.getD 0 '\x00' = '/' := by
      intro e; rw [e] at h; exact absurd h (by decide)
    simp only [path_is_relative]
    rw [if_neg h0, if_pos ⟨trivial, h⟩]
  · intro f h1 h2 h3 h4
    have h0 : ¬ f.getD 0 '\x00' = '/' := by
      intro e; rw [e] at h2; exact absurd h2 (by decide)
    simp only [path_is_relative]
    rw [if_neg h0]
    by_cases hb : f.getD 0 '\x00' = '\\'
    · rw [if_pos ⟨trivial, hb⟩]
    · rw [if_neg (fun hand => hb hand.2), if_pos ⟨trivial, h1, h2, h3, h4⟩]
  · intro c hc
    have h1 : ¬ c = '/' := by intro e; subst e; exact absurd hc (by decide)
    have h2 : ¬ c = '\\' := by intro e; subst e; exact absurd hc (by decide)
    simp only [path_is_relative, List.getD_cons_zero, List.getD_cons_succ,
      List.length_cons, List.length_nil]
    rw [if_neg h1, if_neg (fun hand => h2 hand.2),
      if_neg (fun hand => absurd hand.2.1 (by decide))]

/-- Witness for the amended C7 at a four-character drive path and at the
bare drive root. -/
theorem path_is_relative_spec_inst :
    path_is_relative true (some ['C', ':', '\\', 'x']) = false ∧
    path_is_relative true (some ['D', ':', '\\']) = true :=
  ⟨path_is_relative_spec.2.2.2.2.1 ['C', ':', '\\', 'x'] (by decide) (by decide)
      (by decide) (by decide),
    path_is_relative_spec.2.2.2.2.2 'D' (by decide)⟩

/-- Claim C5: the trailing-separator invariant of successful Match Sets: the
native backend maps every successful facility match through a cleanup that
strips exactly one trailing separator when one is present and leaves the
match unchanged otherwise (so a match with a single trailing separator comes
out with none), and the manual backend's non-glob results pass through the
stat-safe cleanup clean_fname_for_stat. -/
theorem match_set_trailing_sep :
    (∀ paths : List (List Char),
      tor_glob_posix (.ok paths) = some (paths.map strip_one_trailing_sep)) ∧
    (∀ m : List Char, 0 < m.length → m.getD (m.length - 1) ' ' = '/' →
      strip_one_trailing_sep m = m.dropLast) ∧
    (∀ m : List Char, ¬ m.getD (m.length - 1) ' ' = '/' →
      strip_one_trailing_sep m = m) ∧
    (∀ (win32 : Bool) (fs : FS) (path : List Char) (results : List (List Char)),
      ¬ fs.file_status path = .FN_ERROR → ¬ fs.file_status path = .FN_NOENT →
      add_non_glob_path win32 fs path results =
        (true, results ++ [clean_fname_for_stat win32 path])) := by
  refine ⟨fun paths => rfl, ?_, ?_, ?_⟩
  · intro m h1 h2
    simp only [strip_one_trailing_sep]
    rw [if_pos ⟨h1, h2⟩]
  · intro m h
    simp only [strip_one_trailing_sep]
    rw [if_neg (fun hand => h hand.2)]
  · intro win32 fs path results h1 h2
    simp only [add_non_glob_path]
    rw [if_neg h1, if_pos h2]

/-- Witness for C5 at a match with one trailing separator, one without, and
an existing directory added by the non-glob base case. -/
theorem match_set_trailing_sep_inst :
    strip_one_trailing_sep (("/tmp/").toList) = ("/tmp").toList ∧
    strip_one_trailing_sep (("/tmp").toList) = ("/tmp").toList ∧
    add_non_glob_path true fs1 (("a").toList) [] =
      (true, [clean_fname_for_stat true (("a").toList)]) :=
  ⟨match_set_trailing_sep.2.1 (("/tmp/").toList) (by decide) (by decide),
    match_set_trailing_sep.2.2.1 (("/tmp").toList) (by decide),
    match_set_trailing_sep.2.2.2 true fs1 (("a").toList) [] (by decide) (by decide)⟩

lemma tor_glob_win32_succ (fs : FS) (fuel : Nat) (pattern : List Char) :
    tor_glob_win32 fs (fuel + 1) pattern =
      tor_glob_win32_step fs (tor_glob_win32 fs fuel) pattern := rfl

lemma glob_pos_scan_no_glob :
    ∀ (t : List Char) (i : Nat) (prev curr : Int),
      (∀ c ∈ t, ¬ (c = '*' ∨ c = '?')) →
      (glob_pos_scan t i prev curr false).1 = false := by
  intro t
  induction t with
  | nil => intro i prev curr _; rfl
  | cons c rest ih =>
    intro i prev curr h
    have hc : ¬ (c = '*' ∨ c = '?') := h c (List.mem_cons_self c rest)
    have hrest : ∀ x ∈ rest, ¬ (x = '*' ∨ x = '?') :=
      fun x hx => h x (List.mem_cons_of_mem c hx)
    simp only [glob_pos_scan, decide_eq_false hc, Bool.or_false]
    by_cases hsl : (decide (c = '\\' ∨ c = '/') || decide (rest = [])) = true
    · rw [if_pos hsl, if_neg (by simp)]
      exact ih (i + 1) curr (Int.ofNat i) hrest
    · rw [if_neg hsl]
      exact ih (i + 1) prev curr hrest

lemma tor_glob_win32_step_no_glob (fs : FS)
    (recur : List Char → Option (List (List Char))) (pattern : List Char)
    (h : (glob_pos_scan pattern 0 (-1) (-1) false).1 = false) :
    tor_glob_win32_step fs recur pattern =
      (if (add_non_glob_path true fs pattern []).1 then
        some (add_non_glob_path true fs pattern []).2
      else none) := by
  simp only [tor_glob_win32_step]
  rw [if_pos h]

lemma tor_glob_win32_step_glob (fs : FS)
    (recur : List Char → Option (List (List Char))) (pattern : List Char)
    (prev curr : Int)
    (h : glob_pos_scan pattern 0 (-1) (-1) false = (true, prev, curr)) :
    tor_glob_win32_step fs recur pattern =
      (match unglob_win32 fs pattern prev curr with
       | none => none
       | some unglobbed_paths =>
         glob_loop recur (pattern.drop (curr + 1).toNat) unglobbed_paths) := by
  simp only [tor_glob_win32_step, h]
  rw [if_neg (by simp)]

lemma glob_loop_mem_none (recur : List Char → Option (List (List Char)))
    (suffix : List Char) :
    ∀ (lst : List (List Char)) (p : List Char), p ∈ lst →
      recur (p ++ '\\' :: suffix) = none →
      glob_loop recur suffix lst = none := by
  intro lst
  induction lst with
  | nil => intro p hp; cases hp
  | cons q rest ih =>
    intro p hp hnone
    rcases List.mem_cons.mp hp with heq | hmem
    · subst heq
      simp only [glob_loop, hnone]
    · simp only [glob_loop]
      cases hq : recur (q ++ '\\' :: suffix) with
      | none => rfl
      | some opened_next =>
        rw [ih p hmem hnone]

/-- Claim C1: the manual backend is all-or-nothing: once the scan has found a
glob-bearing fragment and its expansion has produced a candidate list, the
failure of any recursive sub-expansion (which also covers a failed directory
enumeration inside that recursive step) makes tor_glob_win32 discard every
partial match and return the error outcome none; a successful result is
therefore never a proper subset surviving a suppressed error. -/
theorem tor_glob_win32_rollback :
    ∀ (fs : FS) (fuel : Nat) (pattern : List Char) (prev curr : Int)
      (unglobbed : List (List Char)),
      glob_pos_scan pattern 0 (-1) (-1) false = (true, prev, curr) →
      unglob_win32 fs pattern prev curr = some unglobbed →
      (∃ p ∈ unglobbed,
        tor_glob_win32 fs fuel (p ++ '\\' :: pattern.drop (curr + 1).toNat) = none) →
      tor_glob_win32 fs (fuel + 1) pattern = none := by
  rintro fs fuel pattern prev curr unglobbed hscan hunglob ⟨p, hp, hnone⟩
  rw [tor_glob_win32_succ, tor_glob_win32_step_glob fs _ pattern prev curr hscan,
    hunglob]
  exact glob_loop_mem_none _ _ unglobbed p hp hnone

/-- Witness for C1: in the world fs1 the pattern a backslash star expands to
the single candidate a backslash x, whose recursive sub-expansion stats the
path with a trailing separator and errors, so the whole expansion returns
the error outcome. -/
theorem tor_glob_win32_rollback_inst :
    tor_glob_win32 fs1 2 (("a\\*").toList) = none :=
  tor_glob_win32_rollback fs1 1 (("a\\*").toList) 1 2 [("a\\x").toList] rfl rfl
    ⟨("a\\x").toList, by decide, rfl⟩

/-- Claim C2: zero matches are distinguished from failure: the native
backend maps the facility outcome GLOB_NOMATCH to an empty non-error Match
Set and any other nonzero outcome to the error outcome none, and the manual
backend maps a metacharacter-free pattern naming no existing path to an
empty non-error Match Set. -/
theorem glob_empty_vs_error :
    tor_glob_posix .nomatch = some [] ∧
    tor_glob_posix .err = none ∧
    (∀ (fs : FS) (fuel : Nat) (pattern : List Char),
      (∀ c ∈ pattern, ¬ (c = '*' ∨ c = '?')) →
      fs.file_status pattern = .FN_NOENT →
      tor_glob_win32 fs (fuel + 1) pattern = some []) := by
  refine ⟨rfl, rfl, ?_⟩
  intro fs fuel pattern hng hstat
  rw [tor_glob_win32_succ,
    tor_glob_win32_step_no_glob fs _ pattern (glob_pos_scan_no_glob pattern 0 (-1) (-1) hng)]
  simp only [add_non_glob_path, hstat]
  rfl

/-- Witness for C2 at the metacharacter-free pattern b in the world fs4
where no path exists. -/
theorem glob_empty_vs_error_inst :
    tor_glob_win32 fs4 1 (("b").toList) = some [] :=
  glob_empty_vs_error.2.2 fs4 0 (("b").toList) (by decide) rfl

/-- Claim C3: the non-glob base case of the manual backend: on a pattern
containing no glob metacharacter, a stat error yields the error outcome
none, any status other than not-exist yields the one-element Match Set
holding the stat-safe cleanup of the pattern (which is the pattern itself
when it carries no trailing separator), and status not-exist yields an
empty non-error Match Set. -/
theorem non_glob_base_case :
    ∀ (fs : FS) (fuel : Nat) (pattern : List Char),
      (∀ c ∈ pattern, ¬ (c = '*' ∨ c = '?')) →
      ((fs.file_status pattern = .FN_ERROR →
          tor_glob_win32 fs (fuel + 1) pattern = none) ∧
        (¬ fs.file_status pattern = .FN_ERROR →
          ¬ fs.file_status pattern = .FN_NOENT →
          tor_glob_win32 fs (fuel + 1) pattern =
            some [clean_fname_for_stat true pattern]) ∧
        (fs.file_status pattern = .FN_NOENT →
          tor_glob_win32 fs (fuel + 1) pattern = some [])) := by
  intro fs fuel pattern hng
  have hbase := tor_glob_win32_step_no_glob fs (tor_glob_win32 fs fuel) pattern
    (glob_pos_scan_no_glob pattern 0 (-1) (-1) hng)
  refine ⟨?_, ?_, ?_⟩
  · intro herr
    rw [tor_glob_win32_succ, hbase]
    simp only [add_non_glob_path, herr]
    rfl
  · intro herr hnoent
    rw [tor_glob_win32_succ, hbase]
    simp only [add_non_glob_path]
    rw [if_neg herr, if_pos hnoent]
    rfl
  · intro hnoent
    rw [tor_glob_win32_succ, hbase]
    simp only [add_non_glob_path, hnoent]
    rfl

/-- Witness for C3 at the metacharacter-free pattern a, an existing
directory in the world fs1. -/
theorem non_glob_base_case_inst :
    tor_glob_win32 fs1 1 (("a").toList) = some [("a").toList] :=
  (non_glob_base_case fs1 0 (("a").toList) (by decide)).2.1 (by decide) (by decide)

/-- Counterexample to claim C4: in the world fs4 the directory named by the
literal prefix a of the pattern a backslash star does not exist, its
enumeration fails, and tor_glob_win32 returns the hard error outcome none
instead of treating the failed first-step enumeration as zero matches. -/
theorem first_step_enum_error_cex :
    tor_glob_win32 fs4 5 (("a\\*").toList) = none ∧
    fs4.file_status (("a").toList) = .FN_NOENT ∧
    fs4.listdir (("a").toList) = none := ⟨rfl, rfl, rfl⟩

/-- Claim C4 as amended: in the manual backend, when the literal prefix
before the first glob-bearing fragment names an existing regular file the
step yields zero matches for that branch, but when the enumeration of the
directory named by the prefix fails (directory missing or unreadable),
unglob_win32 reports failure and tor_glob_win32 returns the error outcome
none rather than zero matches. -/
theorem first_step_enum_error :
    ∀ (fs : FS) (pattern : List Char) (prev curr : Int),
      (is_file (fs.file_status
          (pattern.take (unglob_prefix_len prev).toNat)) = true →
        unglob_win32 fs pattern prev curr = some []) ∧
      (is_file (fs.file_status
          (pattern.take (unglob_prefix_len prev).toNat)) = false →
        fs.listdir (pattern.take (unglob_prefix_len prev).toNat) = none →
        unglob_win32 fs pattern prev curr = none) ∧
      (∀ fuel : Nat, glob_pos_scan pattern 0 (-1) (-1) false = (true, prev, curr) →
        unglob_win32 fs pattern prev curr = none →
        tor_glob_win32 fs (fuel + 1) pattern = none) := by
  intro fs pattern prev curr
  refine ⟨?_, ?_, ?_⟩
  · intro hfile
    simp only [unglob_win32]
    rw [if_pos hfile]
  · intro hfile hlist
    simp only [unglob_win32]
    rw [if_neg (by simp [hfile]), hlist]
  · intro fuel hscan hunglob
    rw [tor_glob_win32_succ, tor_glob_win32_step_glob fs _ pattern prev curr hscan,
      hunglob]

/-- Witness for the amended C4 in the world fs4 at the pattern a backslash
star. -/
theorem first_step_enum_error_inst :
    unglob_win32 fs4 (("a\\*").toList) 1 2 = none ∧
    tor_glob_win32 fs4 3 (("a\\*").toList) = none := by
  have h1 := (first_step_enum_error fs4 (("a\\*").toList) 1 2).2.1 rfl rfl
  exact ⟨h1, (first_step_enum_error fs4 (("a\\*").toList) 1 2).2.2 2 rfl h1⟩

lemma gpd_scan_sep_skip (win32 : Bool) :
    ∀ (seps t : List Char), (∀ c ∈ seps, path_sep win32 c = true) → ¬ t = [] →
      gpd_scan win32 (seps ++ t) true = gpd_scan win32 t true := by
  intro seps
  induction seps with
  | nil => intro t _ _; rfl
  | cons c cs ih =>
    intro t hall ht
    have hc : path_sep win32 c = true := hall c (List.mem_cons_self c cs)
    have hne : ¬ (cs ++ t = []) := by
      intro e
      rcases List.append_eq_nil.mp e with ⟨_, e2⟩
      exact ht e2
    simp only [List.cons_append, gpd_scan, List.append_eq]
    rw [if_pos hc, if_neg hne, if_pos (by trivial)]
    exact ih t (fun x hx => hall x (List.mem_cons_of_mem c hx)) ht

lemma drive_skip_cons2 (win32 : Bool) (c1 c2 : Char) (l : List Char) :
    drive_skip win32 (c1 :: c2 :: l) = decide (win32 = true ∧ c2 = ':') := by
  rw [drive_skip, decide_eq_decide]
  constructor
  · rintro ⟨h1, _, h3⟩
    exact ⟨h1, by simpa using h3⟩
  · rintro ⟨h1, h2⟩
    exact ⟨h1, by simp, by simpa using h2⟩

/-- Claim C6: get_parent_directory rewrites the path slash a slash b slash c
to slash a slash b with success, leaves the root slash unchanged with
success, fails with the no-parent outcome on the separator-free name abc,
and any run of trailing separators appended to a name whose remainder after
the optional drive prefix is nonempty is truncated and ignored when locating
the separator before the final component. -/
theorem get_parent_directory_spec :
    get_parent_directory false (("/a/b/c").toList) = some (("/a/b").toList) ∧
    get_parent_directory false (("/").toList) = some (("/").toList) ∧
    get_parent_directory false (("abc").toList) = none ∧
    (∀ (win32 : Bool) (s seps : List Char),
      ¬ (if drive_skip win32 s then s.drop 2 else s) = [] →
      (∀ c ∈ seps, path_sep win32 c = true) →
      get_parent_directory win32 (s ++ seps) = get_parent_directory win32 s) := by
  refine ⟨by decide, by decide, by decide, ?_⟩
  intro win32 s seps hrest hall
  rcases seps with _ | ⟨c0, cs⟩
  · simp
  have hc0 : path_sep win32 c0 = true := hall c0 (List.mem_cons_self c0 cs)
  have hc0ne : ¬ c0 = ':' := by
    intro e
    subst e
    cases win32 <;> exact absurd hc0 (by decide)
  have hmemr : ∀ x ∈ (c0 :: cs).reverse, path_sep win32 x = true :=
    fun x hx => hall x (List.mem_reverse.mp hx)
  rcases s with _ | ⟨c1, s1⟩
  · exfalso
    exact hrest (by simp [drive_skip])
  rcases s1 with _ | ⟨c2, s2⟩
  · have hsk1 : ¬ (drive_skip win32 [c1] = true) := by
      simp [drive_skip]
    have hsk2 : ¬ (drive_skip win32 ([c1] ++ c0 :: cs) = true) := by
      rw [show [c1] ++ c0 :: cs = c1 :: c0 :: cs from rfl, drive_skip_cons2]
      simp [hc0ne]
    simp only [get_parent_directory]
    rw [if_neg hsk2, if_neg hsk2, if_neg hsk1, if_neg hsk1,
      show ([c1] ++ c0 :: cs).reverse = (c0 :: cs).reverse ++ [c1] from by simp,
      gpd_scan_sep_skip win32 (c0 :: cs).reverse [c1] hmemr (by simp),
      List.reverse_singleton]
  · have heqA : drive_skip win32 ((c1 :: c2 :: s2) ++ c0 :: cs) =
        drive_skip win32 (c1 :: c2 :: s2) := by
      rw [show (c1 :: c2 :: s2) ++ c0 :: cs = c1 :: c2 :: (s2 ++ c0 :: cs) from rfl,
        drive_skip_cons2, drive_skip_cons2]
    by_cases hsk : drive_skip win32 (c1 :: c2 :: s2) = true
    · have hs2ne : ¬ s2 = [] := by
        intro e
        apply hrest
        rw [if_pos hsk, e]
        rfl
      have hskA : drive_skip win32 ((c1 :: c2 :: s2) ++ c0 :: cs) = true :=
        heqA.trans hsk
      simp only [get_parent_directory]
      rw [if_pos hskA, if_pos hskA, if_pos hsk, if_pos hsk,
        show ((c1 :: c2 :: s2) ++ c0 :: cs).take 2 = (c1 :: c2 :: s2).take 2 from rfl,
        show ((c1 :: c2 :: s2) ++ c0 :: cs).drop 2 = s2 ++ c0 :: cs from rfl,
        show (c1 :: c2 :: s2).drop 2 = s2 from rfl,
        List.reverse_append,
        gpd_scan_sep_skip win32 (c0 :: cs).reverse s2.reverse hmemr
          (by simpa using hs2ne)]
    · have hskA : ¬ (drive_skip win32 ((c1 :: c2 :: s2) ++ c0 :: cs) = true) := by
        rw [heqA]
        exact hsk
      simp only [get_parent_directory]
      rw [if_neg hskA, if_neg hskA, if_neg hsk, if_neg hsk,
        List.reverse_append,
        gpd_scan_sep_skip win32 (c0 :: cs).reverse (c1 :: c2 :: s2).reverse hmemr
          (by simp)]

/-- Witness for C6: appending two trailing separators to the path slash a
slash b slash c leaves the computed parent directory unchanged. -/
theorem get_parent_directory_spec_inst :
    get_parent_directory false ((("/a/b/c").toList) ++ (("//").toList)) =
      get_parent_directory false (("/a/b/c").toList) :=
  get_parent_directory_spec.2.2.2 false (("/a/b/c").toList) (("//").toList)
    (by decide) (by decide)

lemma get_unquoted_path_loop_nil (prev : Char) (acc : List Char) :
    get_unquoted_path_loop prev [] acc = some acc := rfl

lemma get_unquoted_path_loop_cons (prev c : Char) (rest acc : List Char) :
    get_unquoted_path_loop prev (c :: rest) acc =
      (if c = '"' ∧ prev = '\\' then
        get_unquoted_path_loop c rest (acc.dropLast ++ [c])
      else if c ≠ '"' then get_unquoted_path_loop c rest (acc ++ [c])
      else none) := rfl

lemma get_unquoted_path_loop_spec :
    ∀ (n : Nat) (body : List Char), body.length ≤ n →
      ∀ (prev : Char) (acc : List Char),
      (prev = '\\' → ¬ body.head? = some '"') →
      get_unquoted_path_loop prev body acc =
        (if contains_bare_quote body then none
         else some (acc ++ unescape_quotes body)) := by
  intro n
  induction n with
  | zero =>
    intro body hlen prev acc _
    have hb : body = [] := List.length_eq_zero.mp (by omega)
    subst hb
    simp [get_unquoted_path_loop_nil, contains_bare_quote, unescape_quotes]
  | succ n ih =>
    intro body hlen prev acc hprev
    rcases body with _ | ⟨c, body2⟩
    · simp [get_unquoted_path_loop_nil, contains_bare_quote, unescape_quotes]
    rcases body2 with _ | ⟨c2, rest⟩
    · by_cases hc : c = '"'
      · subst hc
        have hp : ¬ prev = '\\' := fun e => hprev e (by simp)
        rw [get_unquoted_path_loop_cons, if_neg (fun hand => hp hand.2),
          if_neg (by simp), show contains_bare_quote ['"'] = true from by decide]
        rfl
      · rw [get_unquoted_path_loop_cons, if_neg (fun hand => hc hand.1),
          if_pos hc, get_unquoted_path_loop_nil,
          show contains_bare_quote [c] = false from by simp [contains_bare_quote, hc]]
        rfl
    · have hlen2 : (c2 :: rest).length ≤ n := by
        simp only [List.length_cons] at hlen ⊢
        omega
      have hlen3 : rest.length ≤ n := by
        simp only [List.length_cons] at hlen ⊢
        omega
      by_cases hc : c = '"'
      · subst hc
        have hp : ¬ prev = '\\' := fun e => hprev e (by simp)
        rw [get_unquoted_path_loop_cons, if_neg (fun hand => hp hand.2),
          if_neg (by simp),
          show contains_bare_quote ('"' :: c2 :: rest) = true from by
            simp [contains_bare_quote]]
        rfl
      · by_cases hb : c = '\\'
        · subst hb
          by_cases h2 : c2 = '"'
          · subst h2
            rw [get_unquoted_path_loop_cons,
              if_neg (fun hand => absurd hand.1 (by decide)),
              if_pos (show ('\\' : Char) ≠ '"' from by decide),
              get_unquoted_path_loop_cons, if_pos ⟨rfl, rfl⟩,
              List.dropLast_concat,
              ih rest hlen3 '"' (acc ++ ['"']) (fun e => absurd e (by decide))]
            have e1 : contains_bare_quote ('\\' :: '"' :: rest) =
                contains_bare_quote rest := by
              simp [contains_bare_quote]
            have e2 : unescape_quotes ('\\' :: '"' :: rest) =
                '"' :: unescape_quotes rest := by
              simp [unescape_quotes]
            rw [e1, e2, List.append_assoc]
            rfl
          · rw [get_unquoted_path_loop_cons,
              if_neg (fun hand => absurd hand.1 (by decide)),
              if_pos (show ('\\' : Char) ≠ '"' from by decide),
              ih (c2 :: rest) hlen2 '\\' (acc ++ ['\\'])
                (fun _ => by simpa using h2)]
            have e1 : contains_bare_quote ('\\' :: c2 :: rest) =
                contains_bare_quote (c2 :: rest) := by
              simp [contains_bare_quote, h2]
            have e2 : unescape_quotes ('\\' :: c2 :: rest) =
                '\\' :: unescape_quotes (c2 :: rest) := by
              simp [unescape_quotes, h2]
            rw [e1, e2, List.append_assoc]
            rfl
        · rw [get_unquoted_path_loop_cons, if_neg (fun hand => hc hand.1),
            if_pos hc,
            ih (c2 :: rest) hlen2 c (acc ++ [c]) (fun e => absurd e hb)]
          have e1 : contains_bare_quote (c :: c2 :: rest) =
              contains_bare_quote (c2 :: rest) := by
            simp [contains_bare_quote, hc, hb]
          have e2 : unescape_quotes (c :: c2 :: rest) =
              c :: unescape_quotes (c2 :: rest) := by
            simp [unescape_quotes, hb]
          rw [e1, e2, List.append_assoc]
          rfl

lemma get_unquoted_path_eq (path : List Char) :
    get_unquoted_path path =
      (if ¬ ((path.getD 0 ' ' = '"') ↔ (path.getD (path.length - 1) ' ' = '"')) ∨
          path = ['"'] ∨ contains_bare_quote (quote_interior path) = true
       then none
       else some (unescape_quotes (quote_interior path))) := by
  by_cases h0 : path.length = 0
  · have hp : path = [] := List.length_eq_zero.mp h0
    subst hp
    decide
  · simp only [get_unquoted_path]
    rw [if_neg h0]
    by_cases hq : (path.getD 0 ' ' = '"') ↔ (path.getD (path.length - 1) ' ' = '"')
    · have hshe : decide (path.getD 0 ' ' = '"') =
          decide (path.getD (path.length - 1) ' ' = '"') :=
        decide_eq_decide.mpr hq
      by_cases h1 : path.length = 1 ∧ decide (path.getD 0 ' ' = '"') = true
      · have hp : path = ['"'] := by
          obtain ⟨hl, hcq⟩ := h1
          rcases path with _ | ⟨c, _ | ⟨d, r⟩⟩
          · cases hl
          · have hc : c = '"' := by simpa using hcq
            rw [hc]
          · simp only [List.length_cons] at hl
            omega
        rw [if_pos (Or.inr h1), if_pos (Or.inr (Or.inl hp))]
      · rw [if_neg (not_or.mpr ⟨fun hne => hne hshe, h1⟩),
          get_unquoted_path_loop_spec (quote_interior path).length
            (quote_interior path) le_rfl _ []
            (fun e => absurd e (by
              by_cases hcs : decide (path.getD 0 ' ' = '"') = true
              · rw [if_pos hcs]; decide
              · rw [if_neg hcs]; decide))]
        have hp2 : ¬ path = ['"'] := by
          intro e
          subst e
          exact h1 ⟨rfl, by decide⟩
        by_cases hcb : contains_bare_quote (quote_interior path) = true
        · rw [if_pos hcb, if_pos (Or.inr (Or.inr hcb))]
        · rw [if_neg hcb,
            if_neg (not_or.mpr ⟨fun hne => hne hq, not_or.mpr ⟨hp2, hcb⟩⟩),
            List.nil_append]
    · have hshe : ¬ decide (path.getD 0 ' ' = '"') =
          decide (path.getD (path.length - 1) ' ' = '"') := by
        simpa [decide_eq_decide] using hq
      rw [if_pos (Or.inl hshe), if_pos (Or.inl hq)]

/-- Claim C9: get_unquoted_path fails (returns the malformed-quoting outcome
none) exactly when the input starts with a quote character but does not end
with one or vice versa, is exactly one quote character, or its interior
contains a bare quote not escaped by an immediately preceding backslash;
otherwise it succeeds with the interior in which every backslash-escaped
quote is rewritten to a bare quote with the escaping backslash removed and
every other character preserved; the empty input succeeds with the empty
string. -/
theorem get_unquoted_path_spec :
    ∀ path : List Char,
      (get_unquoted_path path = none ↔
        (¬ ((path.getD 0 ' ' = '"') ↔ (path.getD (path.length - 1) ' ' = '"')) ∨
          path = ['"'] ∨ contains_bare_quote (quote_interior path) = true)) ∧
      (∀ out : List Char, get_unquoted_path path = some out →
        out = unescape_quotes (quote_interior path)) ∧
      get_unquoted_path [] = some [] := by
  intro path
  have h := get_unquoted_path_eq path
  refine ⟨?_, ?_, rfl⟩
  · rw [h]
    by_cases hcond : (¬ ((path.getD 0 ' ' = '"') ↔
        (path.getD (path.length - 1) ' ' = '"')) ∨
        path = ['"'] ∨ contains_bare_quote (quote_interior path) = true)
    · rw [if_pos hcond]
      exact iff_of_true rfl hcond
    · rw [if_neg hcond]
      exact iff_of_false (by simp) hcond
  · intro out hout
    rw [h] at hout
    by_cases hcond : (¬ ((path.getD 0 ' ' = '"') ↔
        (path.getD (path.length - 1) ' ' = '"')) ∨
        path = ['"'] ∨ contains_bare_quote (quote_interior path) = true)
    · rw [if_pos hcond] at hout
      cases hout
    · rw [if_neg hcond] at hout
      exact (Option.some.inj hout).symm

/-- Witness for C9: unquoting the six-character input quote a backslash
quote b quote succeeds and returns a quote b, matching the
specification-side rewriting of its interior. -/
theorem get_unquoted_path_spec_inst :
    ("a\"b").toList = unescape_quotes (quote_interior (("\"a\\\"b\"").toList)) :=
  (get_unquoted_path_spec (("\"a\\\"b\"").toList)).2.1 (("a\"b").toList) (by decide)

end TorPath
